import Mathlib

/-!
Shallow embedding of the PrivateSwap repository's Pool Settlement Engine:
the Transparent pool (`DemoSwap`, Solidity contract with plaintext uint256
reserves and checked arithmetic) and the Confidential pool (`PrivateSwap`,
FHEVM contract whose euint64 ciphertexts are modelled by their plaintext
values with wrap-around mod 2^64 arithmetic).

Solidity 0.8 checked arithmetic is modelled by guarded operations that
return an error (`Except`) on overflow, underflow or division by zero;
`require` failures and modifier aborts are modelled by the corresponding
error constructors.  A reverted call leaves no state change, so an
`Except.error` result stands for "abort, state exactly as before".
-/

/-- Error outcomes of contract calls: each constructor models one `require`
message, OpenZeppelin modifier revert, or Solidity arithmetic panic. -/
inductive Err where
  /-- Pausable's `EnforcedPause` revert from `whenNotPaused`. -/
  | poolPaused
  /-- `require(amount > 0)` style checks. -/
  | invalidAmount
  /-- `require(reserveA > 0 && reserveB > 0)` / `require(amountA <= reserveA ...)`. -/
  | insufficientLiquidity
  /-- `require(amountOut >= minAmountOut, "Insufficient output amount")`. -/
  | insufficientOutput
  /-- `require(newFee <= cap, "Fee too high"/"Fee exceeds maximum")`. -/
  | feeTooHigh
  /-- Ownable's `OwnableUnauthorizedAccount` revert from `onlyOwner`. -/
  | notOwner
  /-- `require(TFHE.isInitialized(...), "Reserves not initialized")`. -/
  | notInitialized
  /-- Solidity checked-arithmetic panic (overflow, underflow, div by zero). -/
  | overflow
  deriving DecidableEq

/-- 2^256, the modulus of Solidity's uint256 (checked: out-of-range reverts). -/
def U256 : Nat := 2 ^ 256

namespace DemoSwap

/-- State of the `DemoSwap` contract: plaintext reserves, fee numerator in
basis points, paused flag and owner principal.  Token addresses are fixed
per instance and irrelevant to the arithmetic, so they are omitted. -/
structure State where
  reserveA : Nat
  reserveB : Nat
  feeNumerator : Nat
  paused : Bool
  owner : Nat
  deriving DecidableEq

/-- `uint256 public constant FEE_DENOMINATOR = 10000;` -/
def FEE_DENOMINATOR : Nat := 10000

/-- `DemoSwap._calculateSwap`: returns `(amountOut, newReserveIn)`.
Each checked uint256 operation is guarded; a guard failure is the
Solidity arithmetic panic (revert). -/
def calculateSwap (s : State) (aToB : Bool) (amountIn : Nat) :
    Except Err (Nat × Nat) :=
  let currentReserveIn := if aToB then s.reserveA else s.reserveB
  let currentReserveOut := if aToB then s.reserveB else s.reserveA
  if amountIn * s.feeNumerator < U256 then
    let fee := amountIn * s.feeNumerator / FEE_DENOMINATOR
    if fee ≤ amountIn then
      let amountInAfterFee := amountIn - fee
      if amountInAfterFee * currentReserveOut < U256 then
        if currentReserveIn + amountInAfterFee < U256 then
          if currentReserveIn + amountInAfterFee = 0 then .error .overflow
          else
            .ok (amountInAfterFee * currentReserveOut /
                   (currentReserveIn + amountInAfterFee),
                 currentReserveIn + amountInAfterFee)
        else .error .overflow
      else .error .overflow
    else .error .overflow
  else .error .overflow

/-- Body of `DemoSwap.swap` after `_calculateSwap` has produced
`amountOut`: the slippage check, then the reserve updates of the chosen
direction (the fee recomputation mirrors the source, which recomputes
`fee` inside the branch). -/
def swapFinish (s : State) (aToB : Bool)
    (amountIn minAmountOut amountOut : Nat) : Except Err (State × Nat) :=
  if amountOut < minAmountOut then .error .insufficientOutput
  else
    let fee := amountIn * s.feeNumerator / FEE_DENOMINATOR
    if aToB then
      if s.reserveA + (amountIn - fee) < U256 then
        if amountOut ≤ s.reserveB then
          .ok ({ s with reserveA := s.reserveA + (amountIn - fee),
                        reserveB := s.reserveB - amountOut }, amountOut)
        else .error .overflow
      else .error .overflow
    else
      if s.reserveB + (amountIn - fee) < U256 then
        if amountOut ≤ s.reserveA then
          .ok ({ s with reserveB := s.reserveB + (amountIn - fee),
                        reserveA := s.reserveA - amountOut }, amountOut)
        else .error .overflow
      else .error .overflow

/-- `DemoSwap.swap`: checks paused, `amountIn > 0`, both reserves positive,
computes the output via `_calculateSwap`, aborts on slippage, then moves
`amountIn - fee` into the input reserve and `amountOut` out of the output
reserve.  Returns the new state and `amountOut`. -/
def swap (aToB : Bool) (amountIn minAmountOut : Nat) (s : State) :
    Except Err (State × Nat) :=
  if s.paused then .error .poolPaused
  else if amountIn = 0 then .error .invalidAmount
  else if s.reserveA = 0 ∨ s.reserveB = 0 then .error .insufficientLiquidity
  else
    match calculateSwap s aToB amountIn with
    | .error e => .error e
    | .ok (amountOut, _) => swapFinish s aToB amountIn minAmountOut amountOut

/-- `DemoSwap.addLiquidity`: requires both amounts positive and not paused;
adds both amounts to the reserves. -/
def addLiquidity (amountA amountB : Nat) (s : State) : Except Err State :=
  if s.paused then .error .poolPaused
  else if amountA = 0 ∨ amountB = 0 then .error .invalidAmount
  else if s.reserveA + amountA < U256 then
    if s.reserveB + amountB < U256 then
      .ok { s with reserveA := s.reserveA + amountA,
                   reserveB := s.reserveB + amountB }
    else .error .overflow
  else .error .overflow

/-- `DemoSwap.removeLiquidity`: requires `amountA ≤ reserveA` and
`amountB ≤ reserveB` (no positivity requirement in the source); subtracts
both amounts from the reserves. -/
def removeLiquidity (amountA amountB : Nat) (s : State) : Except Err State :=
  if s.paused then .error .poolPaused
  else if amountA ≤ s.reserveA ∧ amountB ≤ s.reserveB then
    .ok { s with reserveA := s.reserveA - amountA,
                 reserveB := s.reserveB - amountB }
  else .error .insufficientLiquidity

/-- `DemoSwap.quote`: returns 0 on zero input or empty reserves, otherwise
the `_calculateSwap` output. -/
def quote (aToB : Bool) (amountIn : Nat) (s : State) : Except Err Nat :=
  if amountIn = 0 ∨ s.reserveA = 0 ∨ s.reserveB = 0 then .ok 0
  else
    match calculateSwap s aToB amountIn with
    | .error e => .error e
    | .ok (amountOut, _) => .ok amountOut

/-- `DemoSwap.updateFee`: owner only, `require(newFeeNumerator <= 100)`. -/
def updateFee (caller newFeeNumerator : Nat) (s : State) : Except Err State :=
  if caller ≠ s.owner then .error .notOwner
  else if newFeeNumerator ≤ 100 then
    .ok { s with feeNumerator := newFeeNumerator }
  else .error .feeTooHigh

end DemoSwap

namespace PrivateSwap

/-- 2^64, the modulus of FHEVM's euint64 ciphertext plaintext space. -/
def U64 : Nat := 2 ^ 64

/-- `TFHE.asEuint64` on an external encrypted input: the proof guarantees a
64-bit plaintext, modelled by reduction mod 2^64. -/
def asE (x : Nat) : Nat := x % U64

/-- `TFHE.add` on euint64: wrap-around addition mod 2^64. -/
def tadd (x y : Nat) : Nat := (x + y) % U64

/-- `TFHE.sub` on euint64: wrap-around subtraction mod 2^64. -/
def tsub (x y : Nat) : Nat := (x % U64 + (U64 - y % U64)) % U64

/-- `TFHE.mul` on euint64: wrap-around multiplication mod 2^64. -/
def tmul (x y : Nat) : Nat := (x * y) % U64

/-- Events emitted by `PrivateSwap`; the FHE events carry no plaintext
amounts, only addresses (modelled as `Nat` principals/tokens). -/
inductive PEvent where
  | liquidityAdded (provider : Nat)
  | liquidityRemoved (provider : Nat)
  | swapExecuted (sender tokenIn tokenOut recipient : Nat)
  | feeUpdated (oldFee newFee : Nat)
  | quoteCalculated (user inputToken : Nat)
  | emergencyWithdraw (token amount : Nat)
  deriving DecidableEq

/-- State of the `PrivateSwap` contract.  The encrypted reserves `_reserveA`
and `_reserveB` are always initialized together (both set on first
`addLiquidity`), so they are modelled as one `Option (Nat × Nat)` holding
the plaintexts of the two ciphertexts; `none` is the uninitialized state.
`lastNumerator`/`lastDenominator` are the per-principal quote maps. -/
structure PState where
  tokenA : Nat
  tokenB : Nat
  reserves : Option (Nat × Nat)
  swapFee : Nat
  paused : Bool
  owner : Nat
  lastNumerator : Nat → Nat
  lastDenominator : Nat → Nat

/-- `uint256 public constant MAX_FEE = 1000;` -/
def MAX_FEE : Nat := 1000

/-- `uint256 public constant FEE_DENOMINATOR = 10000;` -/
def FEE_DENOMINATOR : Nat := 10000

/-- `PrivateSwap.setSwapFee`: owner only, `require(newFee <= MAX_FEE)`;
returns the new state and the `FeeUpdated(oldFee, newFee)` event. -/
def setSwapFee (caller newFee : Nat) (s : PState) :
    Except Err (PState × PEvent) :=
  if caller ≠ s.owner then .error .notOwner
  else if newFee ≤ MAX_FEE then
    .ok ({ s with swapFee := newFee }, .feeUpdated s.swapFee newFee)
  else .error .feeTooHigh

/-- `PrivateSwap.addLiquidity`: when not paused, pulls both encrypted
amounts and either initializes the reserves (first call) or adds to them
homomorphically. -/
def addLiquidity (caller amountA amountB : Nat) (s : PState) :
    Except Err (PState × PEvent) :=
  if s.paused then .error .poolPaused
  else
    match s.reserves with
    | some (rA, rB) =>
      .ok ({ s with reserves := some (tadd rA (asE amountA),
                                      tadd rB (asE amountB)) },
           .liquidityAdded caller)
    | none =>
      .ok ({ s with reserves := some (asE amountA, asE amountB) },
           .liquidityAdded caller)

/-- `PrivateSwap.removeLiquidity`: requires reserves initialized; computes
the oblivious-select amounts (requested amounts if both reserves suffice,
else zero) and subtracts them homomorphically.  Returns the new state, the
two transferred amounts `(actualA, actualB)` and the event. -/
def removeLiquidity (caller amountA amountB : Nat) (s : PState) :
    Except Err (PState × Nat × Nat × PEvent) :=
  if s.paused then .error .poolPaused
  else
    match s.reserves with
    | some (rA, rB) =>
      let decA := asE amountA
      let decB := asE amountB
      let hasEnough := decide (decA ≤ rA) && decide (decB ≤ rB)
      let actualA := if hasEnough then decA else 0
      let actualB := if hasEnough then decB else 0
      .ok ({ s with reserves := some (tsub rA actualA, tsub rB actualB) },
           actualA, actualB, .liquidityRemoved caller)
    | none => .error .notInitialized

/-- `PrivateSwap.getQuote`: requires reserves initialized; computes
`amountInWithFee = amountIn * (10000 − swapFee)`,
`numerator = amountInWithFee * reserveOut`,
`denominator = reserveIn * 10000 + amountInWithFee` (all euint64, mod 2^64)
and stores them in the caller's quote slot.  Not guarded by the paused
flag.  `FEE_DENOMINATOR - swapFee` is checked uint256 subtraction. -/
def getQuote (caller amountIn : Nat) (isAtoB : Bool) (s : PState) :
    Except Err (PState × PEvent) :=
  match s.reserves with
  | some (rA, rB) =>
    if s.swapFee ≤ FEE_DENOMINATOR then
      let reserveIn := if isAtoB then rA else rB
      let reserveOut := if isAtoB then rB else rA
      let feeMultiplier := (FEE_DENOMINATOR - s.swapFee) % U64
      let amountInWithFee := tmul (asE amountIn) feeMultiplier
      let numerator := tmul amountInWithFee reserveOut
      let denominator := tadd (tmul reserveIn (FEE_DENOMINATOR % U64))
                              amountInWithFee
      .ok ({ s with
              lastNumerator := fun p =>
                if p = caller then numerator else s.lastNumerator p,
              lastDenominator := fun p =>
                if p = caller then denominator else s.lastDenominator p },
           .quoteCalculated caller (if isAtoB then s.tokenA else s.tokenB))
    else .error .overflow
  | none => .error .notInitialized

/-- `PrivateSwap.swap`: when not paused and reserves initialized, evaluates
the encrypted slippage check `expectedAmountOut ≥ minAmountOut`, obliviously
selects the actual input/output amounts (zero on failure), pulls the input,
updates reserves homomorphically and pushes the output.  Returns the new
state, the actual pulled and pushed amounts and the event — the same
success shape whether or not the slippage check passed. -/
def swap (caller amountIn expectedAmountOut minAmountOut : Nat)
    (isAtoB : Bool) (s : PState) :
    Except Err (PState × Nat × Nat × PEvent) :=
  if s.paused then .error .poolPaused
  else
    match s.reserves with
    | some (rA, rB) =>
      let decIn := asE amountIn
      let decExpected := asE expectedAmountOut
      let decMin := asE minAmountOut
      let isAmountSufficient := decide (decMin ≤ decExpected)
      let actualTransferAmount := if isAmountSufficient then decExpected else 0
      let actualInputAmount := if isAmountSufficient then decIn else 0
      let tokenIn := if isAtoB then s.tokenA else s.tokenB
      let tokenOut := if isAtoB then s.tokenB else s.tokenA
      let newReserves :=
        if isAtoB then (tadd rA actualInputAmount, tsub rB actualTransferAmount)
        else (tsub rA actualTransferAmount, tadd rB actualInputAmount)
      .ok ({ s with reserves := some newReserves },
           actualInputAmount, actualTransferAmount,
           .swapExecuted caller tokenIn tokenOut caller)
    | none => .error .notInitialized

/-- `PrivateSwap.emergencyWithdraw`: owner only, `require(amount > 0)`;
performs no transfer and changes no state, only emits the
`EmergencyWithdraw(token, amount)` event. -/
def emergencyWithdraw (caller token amount : Nat) (s : PState) :
    Except Err (PState × PEvent) :=
  if caller ≠ s.owner then .error .notOwner
  else if amount = 0 then .error .invalidAmount
  else .ok (s, .emergencyWithdraw token amount)

end PrivateSwap

/-- The spec's §4.1 `computeOutput` formula, written over ℤ with floor
division exactly as the claim states it:
`amountInAfterFee = amountIn − floor(amountIn × feeBps / 10000)`;
`amountOut = floor(amountInAfterFee × reserveOut / (reserveIn + amountInAfterFee))`,
with the spec's zero cases. -/
def computeOutputSpec (reserveIn reserveOut amountIn feeBps : Int) : Int :=
  if reserveIn = 0 ∨ reserveOut = 0 ∨ amountIn = 0 then 0
  else
    let amountInAfterFee := amountIn - Int.fdiv (amountIn * feeBps) 10000
    Int.fdiv (amountInAfterFee * reserveOut) (reserveIn + amountInAfterFee)

deriving instance DecidableEq for Except

namespace DemoSwap

/-- Inversion for a successful `_calculateSwap`: it characterizes the
returned output amount and new input reserve. -/
theorem calculateSwap_ok {s : State} {aToB : Bool} {amountIn out d : Nat}
    (h : calculateSwap s aToB amountIn = .ok (out, d)) :
    amountIn * s.feeNumerator / FEE_DENOMINATOR ≤ amountIn ∧
    0 < d ∧
    d = (if aToB then s.reserveA else s.reserveB) +
        (amountIn - amountIn * s.feeNumerator / FEE_DENOMINATOR) ∧
    out = (amountIn - amountIn * s.feeNumerator / FEE_DENOMINATOR) *
            (if aToB then s.reserveB else s.reserveA) / d := by
  cases aToB
  all_goals
    simp only [calculateSwap, Bool.false_eq_true, if_false, if_true] at h ⊢
  all_goals
    split_ifs at h with h1 h2 h3 h4 h5
  all_goals
    simp only [Except.ok.injEq, Prod.mk.injEq] at h
  all_goals
    obtain ⟨hout, hd⟩ := h
  all_goals
    refine ⟨h2, by omega, hd.symm, ?_⟩
  all_goals
    rw [← hd]
  all_goals
    exact hout.symm

/-- Forward evaluation of `_calculateSwap` under no-overflow bounds and a
fee of at most 100%. -/
theorem calculateSwap_eval (s : State) (aToB : Bool) (amountIn : Nat)
    (hIn : 0 < (if aToB then s.reserveA else s.reserveB))
    (hfee : s.feeNumerator ≤ 10000)
    (h1 : amountIn * s.feeNumerator < U256)
    (h2 : (amountIn - amountIn * s.feeNumerator / FEE_DENOMINATOR) *
            (if aToB then s.reserveB else s.reserveA) < U256)
    (h3 : (if aToB then s.reserveA else s.reserveB) +
            (amountIn - amountIn * s.feeNumerator / FEE_DENOMINATOR) < U256) :
    calculateSwap s aToB amountIn =
      .ok ((amountIn - amountIn * s.feeNumerator / FEE_DENOMINATOR) *
             (if aToB then s.reserveB else s.reserveA) /
             ((if aToB then s.reserveA else s.reserveB) +
               (amountIn - amountIn * s.feeNumerator / FEE_DENOMINATOR)),
           (if aToB then s.reserveA else s.reserveB) +
             (amountIn - amountIn * s.feeNumerator / FEE_DENOMINATOR)) := by
  have hfle : amountIn * s.feeNumerator / FEE_DENOMINATOR ≤ amountIn := by
    calc amountIn * s.feeNumerator / FEE_DENOMINATOR
        ≤ amountIn * 10000 / FEE_DENOMINATOR :=
          Nat.div_le_div_right (Nat.mul_le_mul_left amountIn hfee)
      _ = amountIn := by
          unfold FEE_DENOMINATOR
          exact Nat.mul_div_cancel amountIn (by norm_num)
  have hne : ¬((if aToB then s.reserveA else s.reserveB) +
      (amountIn - amountIn * s.feeNumerator / FEE_DENOMINATOR) = 0) := by
    omega
  unfold calculateSwap
  rw [if_pos h1, if_pos hfle, if_pos h2, if_pos h3, if_neg hne]

end DemoSwap

/-- The spec formula over ℤ agrees with the ℕ computation when the fee is
at most 100% and the market is non-degenerate. -/
theorem computeOutputSpec_natCast (rIn rOut amountIn feeBps : Nat)
    (hIn : 0 < rIn) (hOut : 0 < rOut) (hA : 0 < amountIn)
    (hfee : feeBps ≤ 10000) :
    computeOutputSpec rIn rOut amountIn feeBps =
      (((amountIn - amountIn * feeBps / 10000) * rOut /
        (rIn + (amountIn - amountIn * feeBps / 10000)) : Nat) : Int) := by
  have hfle : amountIn * feeBps / 10000 ≤ amountIn := by
    calc amountIn * feeBps / 10000
        ≤ amountIn * 10000 / 10000 :=
          Nat.div_le_div_right (Nat.mul_le_mul_left amountIn hfee)
      _ = amountIn := Nat.mul_div_cancel amountIn (by norm_num)
  simp only [computeOutputSpec]
  rw [if_neg (by simp [Int.natCast_eq_zero]; omega)]
  have e10000 : (10000 : Int) = ((10000 : Nat) : Int) := by norm_num
  have e1 : Int.fdiv ((amountIn : Int) * (feeBps : Int)) 10000
      = ((amountIn * feeBps / 10000 : Nat) : Int) := by
    rw [e10000, ← Int.ofNat_mul, ← Int.ofNat_fdiv]
  rw [e1]
  have e2 : (amountIn : Int) - ((amountIn * feeBps / 10000 : Nat) : Int)
      = ((amountIn - amountIn * feeBps / 10000 : Nat) : Int) :=
    (Int.ofNat_sub hfle).symm
  rw [e2, ← Int.ofNat_mul, ← Int.ofNat_add, ← Int.ofNat_fdiv]

/-- Claim C2, counterexample: the claim quantifies over every `feeBps`, but
for `reserveIn = 1`, `reserveOut = 1`, `amountIn = 2`, `feeBps = 20000` the
contract's checked subtraction `amountIn - fee` underflows and the call
aborts with an arithmetic panic, while the claimed formula prescribes
returning `floor((2 - 4) * 1 / (1 + (2 - 4))) = 2`. -/
theorem C2_counterexample :
    DemoSwap.calculateSwap ⟨1, 1, 20000, false, 0⟩ true 2 = .error .overflow ∧
    computeOutputSpec 1 1 2 20000 = 2 := by
  constructor
  · decide
  · decide

/-- Claim C2, amended: for `reserveIn > 0`, `reserveOut > 0`, `amountIn > 0`
and `feeBps ≤ 10000`, when no uint256 overflow occurs, `_calculateSwap`
returns exactly
`floor(amountInAfterFee * reserveOut / (reserveIn + amountInAfterFee))`
with `amountInAfterFee = amountIn - floor(amountIn * feeBps / 10000)`,
which coincides with the spec's §4.1 formula over ℤ. -/
theorem C2_amended (s : DemoSwap.State) (aToB : Bool) (amountIn : Nat)
    (hIn : 0 < (if aToB then s.reserveA else s.reserveB))
    (hOut : 0 < (if aToB then s.reserveB else s.reserveA))
    (hA : 0 < amountIn)
    (hfee : s.feeNumerator ≤ 10000)
    (h1 : amountIn * s.feeNumerator < U256)
    (h2 : (amountIn - amountIn * s.feeNumerator / 10000) *
            (if aToB then s.reserveB else s.reserveA) < U256)
    (h3 : (if aToB then s.reserveA else s.reserveB) +
            (amountIn - amountIn * s.feeNumerator / 10000) < U256) :
    DemoSwap.calculateSwap s aToB amountIn =
      .ok ((amountIn - amountIn * s.feeNumerator / 10000) *
             (if aToB then s.reserveB else s.reserveA) /
             ((if aToB then s.reserveA else s.reserveB) +
               (amountIn - amountIn * s.feeNumerator / 10000)),
           (if aToB then s.reserveA else s.reserveB) +
             (amountIn - amountIn * s.feeNumerator / 10000)) ∧
    (((amountIn - amountIn * s.feeNumerator / 10000) *
        (if aToB then s.reserveB else s.reserveA) /
        ((if aToB then s.reserveA else s.reserveB) +
          (amountIn - amountIn * s.feeNumerator / 10000)) : Nat) : Int) =
      computeOutputSpec ((if aToB then s.reserveA else s.reserveB : Nat) : Int)
        ((if aToB then s.reserveB else s.reserveA : Nat) : Int)
        (amountIn : Int) (s.feeNumerator : Int) := by
  constructor
  · exact DemoSwap.calculateSwap_eval s aToB amountIn hIn hfee h1 h2 h3
  · exact (computeOutputSpec_natCast _ _ amountIn s.feeNumerator hIn hOut hA
      hfee).symm

/-- Witness for C2, Scenario A: `reserveIn = 1000000`, `reserveOut = 500000`,
`feeBps = 30`, `amountIn = 10000` gives `amountOut = 4935` (and the new
input reserve `1009970`), agreeing with the spec formula. -/
theorem C2_witness :
    DemoSwap.calculateSwap ⟨1000000, 500000, 30, false, 0⟩ true 10000 =
      .ok (4935, 1009970) ∧
    computeOutputSpec 1000000 500000 10000 30 = 4935 := by
  have h := C2_amended ⟨1000000, 500000, 30, false, 0⟩ true 10000 (by decide)
    (by decide) (by decide) (by decide) (by decide) (by decide) (by decide)
  exact ⟨h.1.trans (by decide), (h.2.symm.trans (by decide) : _)⟩

/-- Claim C4, confirmed: a Transparent `swap` whose computed output falls
below `minAmountOut` aborts with the slippage error (the revert rolls back
the whole call: the `Except.error` result carries no post-state, so
reserves, fee and balances are as before). -/
theorem C4_swap_slippage_aborts (s : DemoSwap.State) (aToB : Bool)
    (amountIn minAmountOut out d : Nat)
    (hp : s.paused = false) (h0 : 0 < amountIn)
    (hA : 0 < s.reserveA) (hB : 0 < s.reserveB)
    (hc : DemoSwap.calculateSwap s aToB amountIn = .ok (out, d))
    (hlt : out < minAmountOut) :
    DemoSwap.swap aToB amountIn minAmountOut s = .error .insufficientOutput := by
  simp only [DemoSwap.swap, DemoSwap.swapFinish, hp, if_false, hc]
  rw [if_neg (show ¬(amountIn = 0) by omega),
      if_neg (show ¬(s.reserveA = 0 ∨ s.reserveB = 0) by omega),
      if_pos hlt]
  rfl

/-- Witness for C4, Scenario B: on the Scenario A pool, a swap of 10000 with
`minAmountOut = 5000` aborts with the slippage error. -/
theorem C4_witness :
    DemoSwap.swap true 10000 5000 ⟨1000000, 500000, 30, false, 0⟩ =
      .error .insufficientOutput :=
  C4_swap_slippage_aborts ⟨1000000, 500000, 30, false, 0⟩ true 10000 5000
    4935 1009970 rfl (by decide) (by decide) (by decide) (by decide) (by decide)

namespace DemoSwap

/-- Inversion for a successful Transparent `swap`: recovers the guards that
must have passed and characterizes the post-state and output amount. -/
theorem swap_ok {s s' : State} {aToB : Bool} {amountIn minAmountOut out : Nat}
    (h : swap aToB amountIn minAmountOut s = .ok (s', out)) :
    s.paused = false ∧ 0 < amountIn ∧ 0 < s.reserveA ∧ 0 < s.reserveB ∧
    minAmountOut ≤ out ∧
    out = (amountIn - amountIn * s.feeNumerator / FEE_DENOMINATOR) *
            (if aToB then s.reserveB else s.reserveA) /
          ((if aToB then s.reserveA else s.reserveB) +
            (amountIn - amountIn * s.feeNumerator / FEE_DENOMINATOR)) ∧
    s'.reserveA = (if aToB then
        s.reserveA + (amountIn - amountIn * s.feeNumerator / FEE_DENOMINATOR)
      else s.reserveA - out) ∧
    s'.reserveB = (if aToB then s.reserveB - out
      else s.reserveB + (amountIn - amountIn * s.feeNumerator / FEE_DENOMINATOR)) ∧
    s'.feeNumerator = s.feeNumerator ∧ s'.paused = s.paused ∧
    s'.owner = s.owner := by
  simp only [swap] at h
  split_ifs at h with hp h0 hres
  split at h
  next e hcs => exact Except.noConfusion h
  next o dd hcs =>
    obtain ⟨hfle, hdpos, hdeq, houteq⟩ := calculateSwap_ok hcs
    simp only [swapFinish] at h
    split_ifs at h with hslip hat hb1 hout1 hb2 hout2
    all_goals
      simp only [Except.ok.injEq, Prod.mk.injEq] at h
    all_goals
      obtain ⟨hs', ho⟩ := h
    all_goals
      subst hs'
    all_goals
      subst ho
    all_goals
      simp_all [Bool.not_eq_true]
    all_goals omega

/-- The constant-product output is strictly below the output-side reserve
when the input-side reserve is positive. -/
theorem amountOut_lt_reserveOut (rIn rOut aF : Nat)
    (hIn : 0 < rIn) (hOut : 0 < rOut) :
    aF * rOut / (rIn + aF) < rOut := by
  have hd : 0 < rIn + aF := by omega
  rw [Nat.div_lt_iff_lt_mul hd]
  nlinarith

/-- Adding `aF` to the input reserve and removing the floored constant
product output from the output reserve never decreases the reserve
product. -/
theorem k_after_swap (rIn rOut aF : Nat) (hIn : 0 < rIn) :
    rIn * rOut ≤ (rIn + aF) * (rOut - aF * rOut / (rIn + aF)) := by
  have hd : 0 < rIn + aF := by omega
  have h1 : aF * rOut / (rIn + aF) * (rIn + aF) ≤ aF * rOut :=
    Nat.div_mul_le_self _ _
  have h2 : aF * rOut / (rIn + aF) ≤ rOut := by
    calc aF * rOut / (rIn + aF)
        ≤ (rIn + aF) * rOut / (rIn + aF) :=
          Nat.div_le_div_right (Nat.mul_le_mul_right rOut (by omega))
      _ = rOut := Nat.mul_div_cancel_left rOut hd
  zify [h2]
  zify at h1
  nlinarith [h1]

end DemoSwap

namespace PrivateSwap

/-- Homomorphic addition below the modulus is exact addition. -/
theorem tadd_lt (x y : Nat) (h : x + y < U64) : tadd x y = x + y :=
  Nat.mod_eq_of_lt h

/-- Homomorphic subtraction of an in-range smaller value is exact
subtraction. -/
theorem tsub_of_le (x y : Nat) (hyx : y ≤ x) (hx : x < U64) :
    tsub x y = x - y := by
  unfold tsub
  rw [Nat.mod_eq_of_lt hx, Nat.mod_eq_of_lt (Nat.lt_of_le_of_lt hyx hx)]
  have h1 : x + (U64 - y) = (x - y) + U64 := by
    have h2 : y ≤ U64 := le_of_lt (Nat.lt_of_le_of_lt hyx hx)
    omega
  rw [h1, Nat.add_mod_right]
  exact Nat.mod_eq_of_lt (by omega)

end PrivateSwap

/-- Claim C1, counterexample: the invariant fails in both variants.
Transparent: `removeLiquidity(1, 0)` from reserves `(1, 1)` drains
`reserveA` to zero while `reserveB` stays positive (no positivity check
exists).  Confidential: `removeLiquidity` with a full-side amount passes
the oblivious sufficiency check and drains the side the same way; `swap`
trusts the user-supplied `expectedAmountOut` and subtracting
`expectedAmountOut = reserveOut` zeroes the output reserve; and
`addLiquidity` wraps mod 2^64, so adding `2^63` to a reserve of `2^63`
zeroes it while the other side stays positive. -/
theorem C1_counterexample :
    (DemoSwap.removeLiquidity 1 0 ⟨1, 1, 30, false, 0⟩ =
      .ok ⟨0, 1, 30, false, 0⟩) ∧
    ((PrivateSwap.removeLiquidity 0 1 0
        ⟨10, 11, some (1, 1), 30, false, 0, fun _ => 0, fun _ => 0⟩).map
      (fun r => (r.1.reserves, r.2.1, r.2.2.1)) = .ok (some (0, 1), 1, 0)) ∧
    ((PrivateSwap.swap 0 1 2 0 true
        ⟨10, 11, some (1, 2), 30, false, 0, fun _ => 0, fun _ => 0⟩).map
      (fun r => (r.1.reserves, r.2.1, r.2.2.1)) = .ok (some (2, 0), 1, 2)) ∧
    ((PrivateSwap.addLiquidity 0 (2 ^ 63) 1
        ⟨10, 11, some (2 ^ 63, 1), 30, false, 0, fun _ => 0, fun _ => 0⟩).map
      (fun r => r.1.reserves) = .ok (some (0, 2))) :=
  ⟨by decide, by decide, by decide, by decide⟩

/-- Claim C1, amended: positivity of both reserves is preserved by
Transparent `swap` and `addLiquidity` unconditionally, and by the
Confidential operations only away from the failure modes the
counterexample exhibits: Confidential `addLiquidity` absent euint64 wrap
of either reserve; `removeLiquidity` (both variants) when the removed
amounts are strictly below the reserves (removing a full side zeroes it);
and Confidential `swap` when the input side does not wrap and the
user-supplied output amount is strictly below the output reserve. -/
theorem C1_amended :
    (∀ (s s' : DemoSwap.State) (aToB : Bool) (amountIn minAmountOut out : Nat),
        0 < s.reserveA → 0 < s.reserveB →
        DemoSwap.swap aToB amountIn minAmountOut s = .ok (s', out) →
        0 < s'.reserveA ∧ 0 < s'.reserveB) ∧
    (∀ (s s' : DemoSwap.State) (amountA amountB : Nat),
        0 < s.reserveA → 0 < s.reserveB →
        DemoSwap.addLiquidity amountA amountB s = .ok s' →
        0 < s'.reserveA ∧ 0 < s'.reserveB) ∧
    (∀ (s s' : DemoSwap.State) (amountA amountB : Nat),
        amountA < s.reserveA → amountB < s.reserveB →
        DemoSwap.removeLiquidity amountA amountB s = .ok s' →
        0 < s'.reserveA ∧ 0 < s'.reserveB) ∧
    (∀ (s s' : PrivateSwap.PState) (ev : PrivateSwap.PEvent)
        (c amountA amountB rA rB : Nat),
        s.reserves = some (rA, rB) → 0 < rA → 0 < rB →
        rA + PrivateSwap.asE amountA < PrivateSwap.U64 →
        rB + PrivateSwap.asE amountB < PrivateSwap.U64 →
        PrivateSwap.addLiquidity c amountA amountB s = .ok (s', ev) →
        ∀ rA' rB', s'.reserves = some (rA', rB') → 0 < rA' ∧ 0 < rB') ∧
    (∀ (s s' : PrivateSwap.PState) (ev : PrivateSwap.PEvent)
        (c amountA amountB rA rB actualA actualB : Nat),
        s.reserves = some (rA, rB) →
        rA < PrivateSwap.U64 → rB < PrivateSwap.U64 →
        PrivateSwap.asE amountA < rA → PrivateSwap.asE amountB < rB →
        PrivateSwap.removeLiquidity c amountA amountB s =
          .ok (s', actualA, actualB, ev) →
        ∀ rA' rB', s'.reserves = some (rA', rB') → 0 < rA' ∧ 0 < rB') ∧
    (∀ (s s' : PrivateSwap.PState) (ev : PrivateSwap.PEvent)
        (c amountIn expectedOut minOut : Nat) (isAtoB : Bool)
        (rA rB actualIn actualOut : Nat),
        s.reserves = some (rA, rB) → 0 < rA → 0 < rB →
        rA < PrivateSwap.U64 → rB < PrivateSwap.U64 →
        (if isAtoB then rA else rB) + PrivateSwap.asE amountIn <
          PrivateSwap.U64 →
        PrivateSwap.asE expectedOut < (if isAtoB then rB else rA) →
        PrivateSwap.swap c amountIn expectedOut minOut isAtoB s =
          .ok (s', actualIn, actualOut, ev) →
        ∀ rA' rB', s'.reserves = some (rA', rB') → 0 < rA' ∧ 0 < rB') := by
  refine ⟨?_, ?_, ?_, ?_, ?_, ?_⟩
  · intro s s' aToB amountIn minAmountOut out hA hB h
    obtain ⟨hp, h0, _, _, hmin, hout, hrA, hrB, _, _, _⟩ := DemoSwap.swap_ok h
    cases aToB
    · simp only [Bool.false_eq_true, if_false] at hout hrA hrB
      have hlt := DemoSwap.amountOut_lt_reserveOut s.reserveB s.reserveA
        (amountIn - amountIn * s.feeNumerator / DemoSwap.FEE_DENOMINATOR) hB hA
      rw [← hout] at hlt
      omega
    · simp only [if_true] at hout hrA hrB
      have hlt := DemoSwap.amountOut_lt_reserveOut s.reserveA s.reserveB
        (amountIn - amountIn * s.feeNumerator / DemoSwap.FEE_DENOMINATOR) hA hB
      rw [← hout] at hlt
      omega
  · intro s s' amountA amountB hA hB h
    simp only [DemoSwap.addLiquidity] at h
    split_ifs at h
    simp only [Except.ok.injEq] at h
    subst h
    constructor <;> simp <;> omega
  · intro s s' amountA amountB hA hB h
    simp only [DemoSwap.removeLiquidity] at h
    split_ifs at h
    simp only [Except.ok.injEq] at h
    subst h
    constructor <;> simp <;> omega
  · intro s s' ev c amountA amountB rA rB hres hA hB hbA hbB h rA' rB' hres'
    simp only [PrivateSwap.addLiquidity, hres] at h
    split_ifs at h
    simp only [Except.ok.injEq, Prod.mk.injEq] at h
    obtain ⟨hs', hev⟩ := h
    subst hs'
    simp only [PrivateSwap.tadd_lt _ _ hbA, PrivateSwap.tadd_lt _ _ hbB,
      Option.some.injEq, Prod.mk.injEq] at hres'
    omega
  · intro s s' ev c amountA amountB rA rB actualA actualB hres hrA hrB hsA hsB
      h rA' rB' hres'
    simp only [PrivateSwap.removeLiquidity, hres] at h
    split_ifs at h with hpz hEnough
    · simp only [Bool.and_eq_true, decide_eq_true_eq] at hEnough
      simp only [Except.ok.injEq, Prod.mk.injEq] at h
      obtain ⟨hs', hA', hB', hev⟩ := h
      subst hs'
      simp only [PrivateSwap.tsub_of_le rA (PrivateSwap.asE amountA)
          (le_of_lt hsA) hrA,
        PrivateSwap.tsub_of_le rB (PrivateSwap.asE amountB) (le_of_lt hsB) hrB,
        Option.some.injEq, Prod.mk.injEq] at hres'
      omega
    · simp only [Bool.and_eq_true, decide_eq_true_eq] at hEnough
      omega
  · intro s s' ev c amountIn expectedOut minOut isAtoB rA rB actualIn actualOut
      hres hA hB hrA hrB hbIn hbOut h rA' rB' hres'
    by_cases hpz : s.paused = true
    · simp only [PrivateSwap.swap, hpz, if_true] at h
      exact absurd h (by simp)
    · cases isAtoB
      all_goals simp only [Bool.false_eq_true, if_false, if_true] at hbIn hbOut
      all_goals
        cases hsuff :
          decide (PrivateSwap.asE minOut ≤ PrivateSwap.asE expectedOut)
      all_goals simp only [PrivateSwap.swap, hres, hpz,
        Bool.false_eq_true, eq_self_iff_true, if_false, if_true, hsuff,
        Except.ok.injEq, Prod.mk.injEq] at h
      all_goals obtain ⟨hs', hIn', hOut', hev⟩ := h
      all_goals subst hs'
      · simp only [PrivateSwap.tadd_lt rB 0 (by omega),
          PrivateSwap.tsub_of_le rA 0 (Nat.zero_le _) hrA,
          Option.some.injEq, Prod.mk.injEq] at hres'
        omega
      · simp only [PrivateSwap.tadd_lt rB (PrivateSwap.asE amountIn) hbIn,
          PrivateSwap.tsub_of_le rA (PrivateSwap.asE expectedOut)
            (le_of_lt hbOut) hrA,
          Option.some.injEq, Prod.mk.injEq] at hres'
        omega
      · simp only [PrivateSwap.tadd_lt rA 0 (by omega),
          PrivateSwap.tsub_of_le rB 0 (Nat.zero_le _) hrB,
          Option.some.injEq, Prod.mk.injEq] at hres'
        omega
      · simp only [PrivateSwap.tadd_lt rA (PrivateSwap.asE amountIn) hbIn,
          PrivateSwap.tsub_of_le rB (PrivateSwap.asE expectedOut)
            (le_of_lt hbOut) hrB,
          Option.some.injEq, Prod.mk.injEq] at hres'
        omega

/-- Witness for C1: the six amended arms at concrete inputs — the
Scenario A Transparent swap, Transparent `addLiquidity(1,1)` from reserves
`(1,2)` and `removeLiquidity(1,1)` from reserves `(2,2)`, Confidential
`addLiquidity(3,4)` from reserves `(1,2)`, `removeLiquidity(2,3)` from
reserves `(5,7)`, and a Confidential swap of `(amountIn, expectedOut,
minOut) = (2, 3, 1)` on reserves `(5,7)`. -/
theorem C1_witness :
    (0 < (1009970 : Nat) ∧ 0 < (495065 : Nat)) ∧
    (0 < (2 : Nat) ∧ 0 < (3 : Nat)) ∧
    (0 < (1 : Nat) ∧ 0 < (1 : Nat)) ∧
    (0 < (4 : Nat) ∧ 0 < (6 : Nat)) ∧
    (0 < (3 : Nat) ∧ 0 < (4 : Nat)) ∧
    (0 < (7 : Nat) ∧ 0 < (4 : Nat)) := by
  refine ⟨?_, ?_, ?_, ?_, ?_, ?_⟩
  · exact C1_amended.1 ⟨1000000, 500000, 30, false, 0⟩
      ⟨1009970, 495065, 30, false, 0⟩ true 10000 0 4935
      (by decide) (by decide) (by decide)
  · exact C1_amended.2.1 ⟨1, 2, 30, false, 0⟩ ⟨2, 3, 30, false, 0⟩ 1 1
      (by decide) (by decide) (by decide)
  · exact C1_amended.2.2.1 ⟨2, 2, 30, false, 0⟩ ⟨1, 1, 30, false, 0⟩ 1 1
      (by decide) (by decide) (by decide)
  · exact C1_amended.2.2.2.1
      ⟨10, 11, some (1, 2), 30, false, 0, fun _ => 0, fun _ => 0⟩
      ⟨10, 11, some (4, 6), 30, false, 0, fun _ => 0, fun _ => 0⟩
      (.liquidityAdded 0) 0 3 4 1 2 rfl (by decide) (by decide) (by decide)
      (by decide) rfl 4 6 rfl
  · exact C1_amended.2.2.2.2.1
      ⟨10, 11, some (5, 7), 30, false, 0, fun _ => 0, fun _ => 0⟩
      ⟨10, 11, some (3, 4), 30, false, 0, fun _ => 0, fun _ => 0⟩
      (.liquidityRemoved 0) 0 2 3 5 7 2 3 rfl (by decide) (by decide)
      (by decide) (by decide) rfl 3 4 rfl
  · exact C1_amended.2.2.2.2.2
      ⟨10, 11, some (5, 7), 30, false, 0, fun _ => 0, fun _ => 0⟩
      ⟨10, 11, some (7, 4), 30, false, 0, fun _ => 0, fun _ => 0⟩
      (.swapExecuted 0 10 11 0) 0 2 3 1 true 5 7 2 3 rfl (by decide)
      (by decide) (by decide) (by decide) (by decide) (by decide) rfl 7 4 rfl

/-- Claim C6, counterexample: with `feeBps = 100 > 0` and
`amountIn = 100 > 0`, a swap on reserves `(99, 2)` yields output 1 and the
post-swap product `198 * 1` exactly equals the pre-swap product `99 * 2`:
the product is not strictly increased, because the fee is not added to the
input reserve and the division happens to be exact. -/
theorem C6_counterexample :
    DemoSwap.swap true 100 0 ⟨99, 2, 100, false, 0⟩ =
      .ok (⟨198, 1, 100, false, 0⟩, 1) ∧
    (198 : Nat) * 1 = 99 * 2 := by decide

/-- Claim C6, amended: after every successful Transparent swap the reserve
product `reserveA * reserveB` is greater than or equal to its pre-swap
value (the strict-increase part of the claim fails, see the counterexample). -/
theorem C6_amended (s s' : DemoSwap.State) (aToB : Bool)
    (amountIn minAmountOut out : Nat)
    (h : DemoSwap.swap aToB amountIn minAmountOut s = .ok (s', out)) :
    s.reserveA * s.reserveB ≤ s'.reserveA * s'.reserveB := by
  obtain ⟨hp, h0, hA, hB, hmin, hout, hrA, hrB, _, _, _⟩ := DemoSwap.swap_ok h
  cases aToB
  · simp only [Bool.false_eq_true, if_false] at hout hrA hrB
    have hk := DemoSwap.k_after_swap s.reserveB s.reserveA
      (amountIn - amountIn * s.feeNumerator / DemoSwap.FEE_DENOMINATOR) hB
    rw [← hout] at hk
    rw [hrA, hrB]
    calc s.reserveA * s.reserveB
        = s.reserveB * s.reserveA := Nat.mul_comm _ _
      _ ≤ (s.reserveB +
            (amountIn - amountIn * s.feeNumerator / DemoSwap.FEE_DENOMINATOR)) *
            (s.reserveA - out) := hk
      _ = (s.reserveA - out) *
            (s.reserveB +
              (amountIn - amountIn * s.feeNumerator / DemoSwap.FEE_DENOMINATOR)) :=
          Nat.mul_comm _ _
  · simp only [if_true] at hout hrA hrB
    have hk := DemoSwap.k_after_swap s.reserveA s.reserveB
      (amountIn - amountIn * s.feeNumerator / DemoSwap.FEE_DENOMINATOR) hA
    rw [← hout] at hk
    rw [hrA, hrB]
    exact hk

/-- Witness for C6: the Scenario A swap does not decrease the product. -/
theorem C6_witness : (1000000 : Nat) * 500000 ≤ 1009970 * 495065 :=
  C6_amended ⟨1000000, 500000, 30, false, 0⟩ ⟨1009970, 495065, 30, false, 0⟩
    true 10000 0 4935 (by decide)

/-- Claim C7, counterexample: the Transparent pool's `updateFee` caps the
fee at 100 basis points, not at `MAX_FEE = 1000`: the owner's call with
`newFeeBps = 500 ≤ 1000` is rejected with the fee-too-high error. -/
theorem C7_counterexample :
    (500 : Nat) ≤ 1000 ∧
    DemoSwap.updateFee 0 500 ⟨1, 2, 30, false, 0⟩ = .error .feeTooHigh := by
  decide

/-- Claim C7, amended: fee updates are owner-only and bounded, but the two
variants use different caps: `DemoSwap.updateFee` accepts exactly
`newFee ≤ 100` (1%), `PrivateSwap.setSwapFee` accepts exactly
`newFee ≤ MAX_FEE = 1000` (10%); accepted updates take effect in the
state, rejected and non-owner calls abort with the corresponding error. -/
theorem C7_amended :
    (∀ (s : DemoSwap.State) (caller newFee : Nat),
        caller = s.owner → newFee ≤ 100 →
        DemoSwap.updateFee caller newFee s =
          .ok { s with feeNumerator := newFee }) ∧
    (∀ (s : DemoSwap.State) (caller newFee : Nat),
        caller = s.owner → 100 < newFee →
        DemoSwap.updateFee caller newFee s = .error .feeTooHigh) ∧
    (∀ (s : DemoSwap.State) (caller newFee : Nat),
        caller ≠ s.owner →
        DemoSwap.updateFee caller newFee s = .error .notOwner) ∧
    (∀ (s : PrivateSwap.PState) (caller newFee : Nat),
        caller = s.owner → newFee ≤ 1000 →
        PrivateSwap.setSwapFee caller newFee s =
          .ok ({ s with swapFee := newFee }, .feeUpdated s.swapFee newFee)) ∧
    (∀ (s : PrivateSwap.PState) (caller newFee : Nat),
        caller = s.owner → 1000 < newFee →
        PrivateSwap.setSwapFee caller newFee s = .error .feeTooHigh) ∧
    (∀ (s : PrivateSwap.PState) (caller newFee : Nat),
        caller ≠ s.owner →
        PrivateSwap.setSwapFee caller newFee s = .error .notOwner) := by
  refine ⟨?_, ?_, ?_, ?_, ?_, ?_⟩
  · intro s caller newFee h1 h2
    simp only [DemoSwap.updateFee]
    rw [if_neg (fun hc => hc h1), if_pos h2]
  · intro s caller newFee h1 h2
    simp only [DemoSwap.updateFee]
    rw [if_neg (fun hc => hc h1), if_neg (by omega)]
  · intro s caller newFee h1
    simp only [DemoSwap.updateFee]
    rw [if_pos h1]
  · intro s caller newFee h1 h2
    simp only [PrivateSwap.setSwapFee]
    rw [if_neg (fun hc => hc h1),
        if_pos (show newFee ≤ PrivateSwap.MAX_FEE from h2)]
  · intro s caller newFee h1 h2
    simp only [PrivateSwap.setSwapFee]
    rw [if_neg (fun hc => hc h1),
        if_neg (show ¬(newFee ≤ PrivateSwap.MAX_FEE) by
          simp only [PrivateSwap.MAX_FEE]; omega)]
  · intro s caller newFee h1
    simp only [PrivateSwap.setSwapFee]
    rw [if_pos h1]

/-- Witness for C7: all six amended arms at concrete inputs. -/
theorem C7_witness :
    DemoSwap.updateFee 0 40 ⟨1, 2, 30, false, 0⟩ = .ok ⟨1, 2, 40, false, 0⟩ ∧
    DemoSwap.updateFee 0 101 ⟨1, 2, 30, false, 0⟩ = .error .feeTooHigh ∧
    DemoSwap.updateFee 5 40 ⟨1, 2, 30, false, 0⟩ = .error .notOwner ∧
    PrivateSwap.setSwapFee 0 40
        ⟨10, 11, some (1, 2), 30, false, 0, fun _ => 0, fun _ => 0⟩ =
      .ok (⟨10, 11, some (1, 2), 40, false, 0, fun _ => 0, fun _ => 0⟩,
           .feeUpdated 30 40) ∧
    PrivateSwap.setSwapFee 0 1001
        ⟨10, 11, some (1, 2), 30, false, 0, fun _ => 0, fun _ => 0⟩ =
      .error .feeTooHigh ∧
    PrivateSwap.setSwapFee 5 40
        ⟨10, 11, some (1, 2), 30, false, 0, fun _ => 0, fun _ => 0⟩ =
      .error .notOwner :=
  ⟨C7_amended.1 ⟨1, 2, 30, false, 0⟩ 0 40 rfl (by decide),
   C7_amended.2.1 ⟨1, 2, 30, false, 0⟩ 0 101 rfl (by decide),
   C7_amended.2.2.1 ⟨1, 2, 30, false, 0⟩ 5 40 (by decide),
   C7_amended.2.2.2.1 _ 0 40 rfl (by decide),
   C7_amended.2.2.2.2.1 _ 0 1001 rfl (by decide),
   C7_amended.2.2.2.2.2 _ 5 40 (by decide)⟩

/-- Claim C9, confirmed: a successful Transparent `addLiquidity(a, b)`
followed by `removeLiquidity(a, b)` succeeds and restores the exact prior
state (in particular both reserves). -/
theorem C9_roundtrip (s s' : DemoSwap.State) (a b : Nat)
    (h : DemoSwap.addLiquidity a b s = .ok s') :
    DemoSwap.removeLiquidity a b s' = .ok s := by
  obtain ⟨rA, rB, fn, pz, ow⟩ := s
  simp only [DemoSwap.addLiquidity] at h
  split_ifs at h with hp h0 h1 h2
  simp only [Except.ok.injEq] at h
  subst h
  simp only [DemoSwap.removeLiquidity]
  rw [if_neg hp, if_pos (by constructor <;> omega)]
  simp

/-- Witness for C9: adding `(5, 7)` to reserves `(10, 20)` and removing
`(5, 7)` again restores `(10, 20)`. -/
theorem C9_witness :
    DemoSwap.removeLiquidity 5 7 ⟨15, 27, 30, false, 0⟩ =
      .ok ⟨10, 20, 30, false, 0⟩ :=
  C9_roundtrip ⟨10, 20, 30, false, 0⟩ ⟨15, 27, 30, false, 0⟩ 5 7 (by decide)

/-- Claim C10, confirmed: an owner call of `emergencyWithdraw` with a
positive amount succeeds, changes nothing in the state (reserves, fee,
paused flag and the stored quote numerators/denominators are the same
state value `s`), performs no transfer, and only emits the
`EmergencyWithdraw(token, amount)` event. -/
theorem C10_emergencyWithdraw_frame (s : PrivateSwap.PState)
    (caller token amount : Nat) (hown : caller = s.owner) (h0 : 0 < amount) :
    PrivateSwap.emergencyWithdraw caller token amount s =
      .ok (s, .emergencyWithdraw token amount) := by
  simp only [PrivateSwap.emergencyWithdraw]
  rw [if_neg (fun hc => hc hown), if_neg (by omega)]

/-- Witness for C10 at a concrete state and amount. -/
theorem C10_witness :
    PrivateSwap.emergencyWithdraw 0 42 5
        ⟨10, 11, some (1, 2), 30, false, 0, fun _ => 0, fun _ => 0⟩ =
      .ok (⟨10, 11, some (1, 2), 30, false, 0, fun _ => 0, fun _ => 0⟩,
           .emergencyWithdraw 42 5) :=
  C10_emergencyWithdraw_frame
    ⟨10, 11, some (1, 2), 30, false, 0, fun _ => 0, fun _ => 0⟩ 0 42 5 rfl
    (by decide)

namespace PrivateSwap

/-- Homomorphic addition of zero is the identity on in-range values. -/
theorem tadd_zero (x : Nat) (hx : x < U64) : tadd x 0 = x := by
  simp [tadd, Nat.mod_eq_of_lt hx]

/-- Homomorphic subtraction of zero is the identity on in-range values. -/
theorem tsub_zero (x : Nat) (hx : x < U64) : tsub x 0 = x := by
  unfold tsub
  rw [Nat.zero_mod, Nat.sub_zero, Nat.mod_eq_of_lt hx, Nat.add_mod_right,
      Nat.mod_eq_of_lt hx]

end PrivateSwap

/-- Claim C5, confirmed: a Confidential swap whose plaintexts fail the
slippage check (`expectedAmountOut < minAmountOut`) obliviously degrades
to a zero-effect success: both selected amounts are 0, zero tokens are
pulled and pushed, the state (including the encrypted reserves) is
exactly unchanged, and the call returns the same `SwapExecuted` success
shape as a passing swap. -/
theorem C5_oblivious_fail (s : PrivateSwap.PState)
    (caller amountIn expectedOut minOut : Nat) (isAtoB : Bool) (rA rB : Nat)
    (hp : s.paused = false) (hres : s.reserves = some (rA, rB))
    (hrA : rA < PrivateSwap.U64) (hrB : rB < PrivateSwap.U64)
    (hexp : expectedOut < PrivateSwap.U64) (hmin : minOut < PrivateSwap.U64)
    (hlt : expectedOut < minOut) :
    PrivateSwap.swap caller amountIn expectedOut minOut isAtoB s =
      .ok (s, 0, 0,
        .swapExecuted caller (if isAtoB then s.tokenA else s.tokenB)
          (if isAtoB then s.tokenB else s.tokenA) caller) := by
  have hsufficient : ¬(PrivateSwap.asE minOut ≤ PrivateSwap.asE expectedOut) := by
    simp only [PrivateSwap.asE]
    rw [Nat.mod_eq_of_lt hmin, Nat.mod_eq_of_lt hexp]
    omega
  obtain ⟨tA, tB, res, fee, pz, ow, ln, ld⟩ := s
  simp only at hp hres
  subst hp
  subst hres
  cases isAtoB <;>
    simp [PrivateSwap.swap, hsufficient, PrivateSwap.tadd_zero rA hrA,
      PrivateSwap.tsub_zero rB hrB, PrivateSwap.tadd_zero rB hrB,
      PrivateSwap.tsub_zero rA hrA]

/-- Witness for C5: a Confidential swap with `expectedAmountOut = 4` below
`minAmountOut = 5` succeeds with zero amounts and unchanged state. -/
theorem C5_witness :
    PrivateSwap.swap 7 100 4 5 true
        ⟨10, 11, some (1000, 2000), 30, false, 0, fun _ => 0, fun _ => 0⟩ =
      .ok (⟨10, 11, some (1000, 2000), 30, false, 0, fun _ => 0, fun _ => 0⟩,
           0, 0, .swapExecuted 7 10 11 7) :=
  C5_oblivious_fail
    ⟨10, 11, some (1000, 2000), 30, false, 0, fun _ => 0, fun _ => 0⟩
    7 100 4 5 true 1000 2000 rfl rfl (by decide) (by decide) (by decide)
    (by decide) (by decide)

/-- Claim C3, counterexample: the Confidential quote scales the formula
(`amountIn * (10000 - fee)` against `reserveIn * 10000`) while the
Transparent `_calculateSwap` first floors the fee; for plaintexts
`reserveIn = 1`, `reserveOut = 2`, `amountIn = 1`, `feeBps = 30` the
Confidential quotient `floor(19940 / 19970) = 0` differs from the
Transparent output `1`. -/
theorem C3_counterexample :
    (PrivateSwap.getQuote 0 1 true
        ⟨10, 11, some (1, 2), 30, false, 0, fun _ => 0, fun _ => 0⟩).map
      (fun r => r.1.lastNumerator 0 / r.1.lastDenominator 0) = .ok 0 ∧
    DemoSwap.calculateSwap ⟨1, 2, 30, false, 0⟩ true 1 = .ok (1, 2) := by
  constructor
  · decide
  · decide

/-- Core rounding identity: when `10000` divides `amountIn * fee` and no
euint64 wrap occurs, the floored quotient of the Confidential quote's
numerator and denominator collapses (cancelling the common factor 10000)
to the Transparent formula's floored output. -/
theorem quoteDivEq (rIn rOut amountIn fee : Nat)
    (hdvd : 10000 ∣ amountIn * fee) (hfee : fee ≤ 10000)
    (hIn64 : amountIn < PrivateSwap.U64)
    (hb1 : amountIn * (10000 - fee) < PrivateSwap.U64)
    (hb2 : amountIn * (10000 - fee) * rOut < PrivateSwap.U64)
    (hb3 : rIn * 10000 + amountIn * (10000 - fee) < PrivateSwap.U64) :
    PrivateSwap.tmul (PrivateSwap.tmul (PrivateSwap.asE amountIn)
        ((PrivateSwap.FEE_DENOMINATOR - fee) % PrivateSwap.U64)) rOut /
      PrivateSwap.tadd
        (PrivateSwap.tmul rIn (PrivateSwap.FEE_DENOMINATOR % PrivateSwap.U64))
        (PrivateSwap.tmul (PrivateSwap.asE amountIn)
          ((PrivateSwap.FEE_DENOMINATOR - fee) % PrivateSwap.U64)) =
    (amountIn - amountIn * fee / 10000) * rOut /
      (rIn + (amountIn - amountIn * fee / 10000)) := by
  have ht : amountIn * fee / 10000 * 10000 = amountIn * fee :=
    Nat.div_mul_cancel hdvd
  have htle : amountIn * fee / 10000 ≤ amountIn := by
    calc amountIn * fee / 10000
        ≤ amountIn * 10000 / 10000 :=
          Nat.div_le_div_right (Nat.mul_le_mul_left amountIn hfee)
      _ = amountIn := Nat.mul_div_cancel amountIn (by norm_num)
  have hasE : PrivateSwap.asE amountIn = amountIn := Nat.mod_eq_of_lt hIn64
  have hfm : (PrivateSwap.FEE_DENOMINATOR - fee) % PrivateSwap.U64 =
      10000 - fee := by
    apply Nat.mod_eq_of_lt
    calc PrivateSwap.FEE_DENOMINATOR - fee ≤ 10000 := by
          simp only [PrivateSwap.FEE_DENOMINATOR]; omega
      _ < PrivateSwap.U64 := by simp only [PrivateSwap.U64]; norm_num
  have hfd : PrivateSwap.FEE_DENOMINATOR % PrivateSwap.U64 = 10000 := by
    norm_num [PrivateSwap.FEE_DENOMINATOR, PrivateSwap.U64]
  have hrIn : rIn * 10000 < PrivateSwap.U64 := by omega
  have e1 : PrivateSwap.tmul (PrivateSwap.tmul (PrivateSwap.asE amountIn)
        ((PrivateSwap.FEE_DENOMINATOR - fee) % PrivateSwap.U64)) rOut
      = amountIn * (10000 - fee) * rOut := by
    rw [hasE, hfm]
    unfold PrivateSwap.tmul
    rw [Nat.mod_eq_of_lt hb1, Nat.mod_eq_of_lt hb2]
  have e2 : PrivateSwap.tadd
        (PrivateSwap.tmul rIn (PrivateSwap.FEE_DENOMINATOR % PrivateSwap.U64))
        (PrivateSwap.tmul (PrivateSwap.asE amountIn)
          ((PrivateSwap.FEE_DENOMINATOR - fee) % PrivateSwap.U64))
      = rIn * 10000 + amountIn * (10000 - fee) := by
    rw [hasE, hfm, hfd]
    unfold PrivateSwap.tadd PrivateSwap.tmul
    rw [Nat.mod_eq_of_lt hrIn, Nat.mod_eq_of_lt hb1, Nat.mod_eq_of_lt hb3]
  have key : amountIn * (10000 - fee) =
      (amountIn - amountIn * fee / 10000) * 10000 := by
    have k1 : amountIn * (10000 - fee) + amountIn * fee = amountIn * 10000 := by
      rw [← Nat.mul_add]
      congr 1
      omega
    have k2 : (amountIn - amountIn * fee / 10000) * 10000 +
        amountIn * fee / 10000 * 10000 = amountIn * 10000 := by
      rw [← Nat.add_mul]
      congr 1
      omega
    omega
  rw [e1, e2, key]
  have r1 : (amountIn - amountIn * fee / 10000) * 10000 * rOut =
      (amountIn - amountIn * fee / 10000) * rOut * 10000 := by ring
  have r2 : rIn * 10000 + (amountIn - amountIn * fee / 10000) * 10000 =
      (rIn + (amountIn - amountIn * fee / 10000)) * 10000 := by ring
  rw [r1, r2, Nat.mul_div_mul_right _ _ (show 0 < 10000 by norm_num)]

/-- Claim C3, amended: when `10000` divides `amountIn * feeBps` (so the
Transparent fee flooring is exact) and no euint64 wrap occurs, the floored
quotient of the `(numerator, denominator)` stored by the Confidential
`getQuote` equals the Transparent pool's `_calculateSwap` output for the
same plaintext `(reserveIn, reserveOut, amountIn, feeBps)`; in general the
two formulas differ by rounding (see the counterexample). -/
theorem C3_amended (s s' : PrivateSwap.PState) (ev : PrivateSwap.PEvent)
    (caller amountIn : Nat) (isAtoB : Bool) (rA rB out d : Nat)
    (hres : s.reserves = some (rA, rB))
    (hdvd : 10000 ∣ amountIn * s.swapFee)
    (hfee : s.swapFee ≤ 10000)
    (hIn64 : amountIn < PrivateSwap.U64)
    (hb1 : amountIn * (10000 - s.swapFee) < PrivateSwap.U64)
    (hb2 : amountIn * (10000 - s.swapFee) * (if isAtoB then rB else rA) <
        PrivateSwap.U64)
    (hb3 : (if isAtoB then rA else rB) * 10000 +
        amountIn * (10000 - s.swapFee) < PrivateSwap.U64)
    (hq : PrivateSwap.getQuote caller amountIn isAtoB s = .ok (s', ev))
    (hd : DemoSwap.calculateSwap ⟨rA, rB, s.swapFee, false, 0⟩ isAtoB amountIn =
        .ok (out, d)) :
    s'.lastNumerator caller / s'.lastDenominator caller = out := by
  obtain ⟨hfle, hdpos, hdeq, houteq⟩ := DemoSwap.calculateSwap_ok hd
  simp only [DemoSwap.FEE_DENOMINATOR] at hfle hdeq houteq
  simp only [PrivateSwap.getQuote, hres] at hq
  split_ifs at hq with hfc hdir
  all_goals
    simp only [Except.ok.injEq, Prod.mk.injEq] at hq
  all_goals
    obtain ⟨hs', hev⟩ := hq
  all_goals
    subst hs'
  all_goals
    dsimp only
  all_goals
    simp only [if_pos (rfl : caller = caller), if_true]
  · simp only [hdir, eq_self_iff_true, if_true] at hb2 hb3 houteq hdeq
    rw [quoteDivEq rA rB amountIn s.swapFee hdvd hfee hIn64 hb1 hb2 hb3]
    rw [houteq, hdeq]
  · have hdir' : isAtoB = false := by simpa using hdir
    simp only [hdir', Bool.false_eq_true, if_false] at hb2 hb3 houteq hdeq
    rw [quoteDivEq rB rA amountIn s.swapFee hdvd hfee hIn64 hb1 hb2 hb3]
    rw [houteq, hdeq]

/-- Witness for C3: `amountIn = 1000`, `feeBps = 30` (so `10000` divides
`amountIn * feeBps`), reserves `(500, 400)`: the Confidential quotient
`3988000000 / 14970000` and the Transparent output both equal 266. -/
theorem C3_witness : (3988000000 : Nat) / 14970000 = 266 ∧
    DemoSwap.calculateSwap ⟨500, 400, 30, false, 0⟩ true 1000 =
      .ok (266, 1497) :=
  ⟨C3_amended ⟨10, 11, some (500, 400), 30, false, 0, fun _ => 0, fun _ => 0⟩
      ⟨10, 11, some (500, 400), 30, false, 0,
        fun p => if p = 0 then 3988000000 else 0,
        fun p => if p = 0 then 14970000 else 0⟩
      (.quoteCalculated 0 10) 0 1000 true 500 400 266 1497
      rfl (by decide) (by decide) (by decide) (by decide) (by decide)
      (by decide) rfl (by decide),
   by decide⟩

/-- Claim C8, confirmed: while a pool is paused every mutating operation of
both variants fails fast with the pool-paused error (the revert leaves no
state change), while the read paths are unaffected by the flag:
Transparent `quote` returns the same result as on the unpaused state, and
Confidential `getQuote` succeeds with exactly the same quote bookkeeping
as on the unpaused state (the result differs only in carrying the paused
flag through). -/
theorem C8_paused (sD : DemoSwap.State) (sP : PrivateSwap.PState)
    (hD : sD.paused = true) (hP : sP.paused = true) :
    (∀ (aToB : Bool) (amountIn minAmountOut : Nat),
        DemoSwap.swap aToB amountIn minAmountOut sD = .error .poolPaused) ∧
    (∀ (a b : Nat), DemoSwap.addLiquidity a b sD = .error .poolPaused) ∧
    (∀ (a b : Nat), DemoSwap.removeLiquidity a b sD = .error .poolPaused) ∧
    (∀ (c aIn expOut mn : Nat) (dir : Bool),
        PrivateSwap.swap c aIn expOut mn dir sP = .error .poolPaused) ∧
    (∀ (c a b : Nat), PrivateSwap.addLiquidity c a b sP = .error .poolPaused) ∧
    (∀ (c a b : Nat),
        PrivateSwap.removeLiquidity c a b sP = .error .poolPaused) ∧
    (∀ (aToB : Bool) (amountIn : Nat),
        DemoSwap.quote aToB amountIn sD =
          DemoSwap.quote aToB amountIn { sD with paused := false }) ∧
    (∀ (c aIn : Nat) (dir : Bool),
        PrivateSwap.getQuote c aIn dir sP =
          (PrivateSwap.getQuote c aIn dir { sP with paused := false }).map
            (fun r => ({ r.1 with paused := true }, r.2))) := by
  refine ⟨?_, ?_, ?_, ?_, ?_, ?_, ?_, ?_⟩
  · intro aToB amountIn minAmountOut
    simp only [DemoSwap.swap]
    rw [if_pos hD]
  · intro a b
    simp only [DemoSwap.addLiquidity]
    rw [if_pos hD]
  · intro a b
    simp only [DemoSwap.removeLiquidity]
    rw [if_pos hD]
  · intro c aIn expOut mn dir
    simp only [PrivateSwap.swap]
    rw [if_pos hP]
  · intro c a b
    simp only [PrivateSwap.addLiquidity]
    rw [if_pos hP]
  · intro c a b
    simp only [PrivateSwap.removeLiquidity]
    rw [if_pos hP]
  · intro aToB amountIn
    rfl
  · intro c aIn dir
    cases sP with
    | mk tA tB res fee pz ow ln ld =>
      have hpz : pz = true := hP
      subst hpz
      cases res with
      | none => rfl
      | some rr =>
        obtain ⟨rA, rB⟩ := rr
        simp only [PrivateSwap.getQuote]
        split_ifs <;> rfl

/-- Witness for C8: all eight conjuncts at concrete paused states. -/
theorem C8_witness :
    DemoSwap.swap true 5 0 ⟨7, 9, 30, true, 0⟩ = .error .poolPaused ∧
    DemoSwap.addLiquidity 1 1 ⟨7, 9, 30, true, 0⟩ = .error .poolPaused ∧
    DemoSwap.removeLiquidity 1 1 ⟨7, 9, 30, true, 0⟩ = .error .poolPaused ∧
    PrivateSwap.swap 0 1 2 3 true
        ⟨10, 11, some (1, 2), 30, true, 0, fun _ => 0, fun _ => 0⟩ =
      .error .poolPaused ∧
    PrivateSwap.addLiquidity 0 1 1
        ⟨10, 11, some (1, 2), 30, true, 0, fun _ => 0, fun _ => 0⟩ =
      .error .poolPaused ∧
    PrivateSwap.removeLiquidity 0 1 1
        ⟨10, 11, some (1, 2), 30, true, 0, fun _ => 0, fun _ => 0⟩ =
      .error .poolPaused ∧
    DemoSwap.quote true 5 ⟨7, 9, 30, true, 0⟩ =
      DemoSwap.quote true 5 ⟨7, 9, 30, false, 0⟩ ∧
    PrivateSwap.getQuote 0 5 true
        ⟨10, 11, some (1, 2), 30, true, 0, fun _ => 0, fun _ => 0⟩ =
      (PrivateSwap.getQuote 0 5 true
          ⟨10, 11, some (1, 2), 30, false, 0, fun _ => 0, fun _ => 0⟩).map
        (fun r => ({ r.1 with paused := true }, r.2)) := by
  have h := C8_paused ⟨7, 9, 30, true, 0⟩
    ⟨10, 11, some (1, 2), 30, true, 0, fun _ => 0, fun _ => 0⟩ rfl rfl
  exact ⟨h.1 true 5 0, h.2.1 1 1, h.2.2.1 1 1, h.2.2.2.1 0 1 2 3 true,
    h.2.2.2.2.1 0 1 1, h.2.2.2.2.2.1 0 1 1, h.2.2.2.2.2.2.1 true 5,
    h.2.2.2.2.2.2.2 0 5 true⟩
